import Mathlib

/-!
# Verification of the easyNginx configuration engine

A shallow embedding, in Lean 4, of the parts of the easyNginx repository
(Python) that the specification's claims are about:

* `src/services/config_parser.py` — block extraction
  (`ConfigParser._extract_server_blocks`), site-kind classification
  (`ConfigParser._detect_site_type`) and the redirect-stub filter
  (`ConfigParser._is_redirect_server_block`);
* `src/services/config_manager.py` — `ConfigManager.update_config`,
  `ConfigManager.backup_config`, `ConfigManager._backup_site_config`;
* `src/services/config_generator.py` — `ConfigGenerator.generate_config`,
  `ConfigGenerator._register_filters`, `_prepare_template_context` and the
  built-in default templates;
* `src/models/site_config.py` — `ProxySiteConfig.validate_location_path`.

Python strings are modelled as `String` / `List Char`; Python dicts that the
code iterates in insertion order are modelled as association lists; the file
system touched by the manager is modelled as an explicit record of file
contents.  Impure inputs (the wall clock used for backup names, the Jinja2
render of a fixed on-disk template) are threaded as explicit parameters.
-/

/-! ## String helpers

`listStarts pat s` is Python's `s.startswith(pat)` on the char lists, and
`containsSubList pat s` / `strContains s pat` is Python's `pat in s`
(substring containment). -/

/-- `pat` is a prefix of `s` (Boolean, executable). -/
def listStarts : List Char → List Char → Bool
  | [], _ => true
  | _ :: _, [] => false
  | a :: as, b :: bs => a == b && listStarts as bs

/-- `pat` occurs as a contiguous sublist of `s` (Boolean, executable). -/
def containsSubList (pat : List Char) : List Char → Bool
  | [] => pat.isEmpty
  | c :: cs => listStarts pat (c :: cs) || containsSubList pat cs

/-- Python's `pat in s` for strings. -/
def strContains (s pat : String) : Bool :=
  containsSubList pat.data s.data

/-- Python's `s.lower()`: character-wise lowering (the configuration
keywords involved are ASCII, where the two agree). -/
def strToLower (s : String) : String :=
  ⟨s.data.map Char.toLower⟩

theorem listStarts_iff (pat s : List Char) :
    listStarts pat s = true ↔ pat <+: s := by
  induction pat generalizing s with
  | nil => simp [listStarts]
  | cons a as ih =>
    cases s with
    | nil => simp [listStarts]
    | cons b bs =>
      simp only [listStarts, Bool.and_eq_true, beq_iff_eq, ih,
        List.cons_prefix_cons]

/-! ## Site-kind classification (`ConfigParser._detect_site_type`)

The directive map built by `_parse_server_block` is an insertion-ordered
dict `name ↦ value`; the Python code iterates its keys in order.  We model
it as an association list `List (String × String)`.  A `location` block is
a pair of its selector path and its body text
(`ConfigParser._extract_locations` returns `{"path": …, "body": …}`). -/

/-- One extracted `location` block: selector path and body text. -/
structure LocationBlock where
  path : String
  body : String
deriving DecidableEq, Repr

/-- The second loop of `_detect_site_type`: for each location *in order*,
check `fastcgi_pass` then `proxy_pass` against the lower-cased body, and
return at the first hit. -/
def detectLocLoop : List LocationBlock → Option String
  | [] => none
  | l :: ls =>
    if strContains (strToLower l.body) "fastcgi_pass" then some "php"
    else if strContains (strToLower l.body) "proxy_pass" then some "proxy"
    else detectLocLoop ls

/-- `ConfigParser._detect_site_type` (config_parser.py lines 365–392):
any directive name containing `"php"` (case-insensitively) → `"php"`;
otherwise the per-location loop; otherwise `"static"` whether or not a
`root` directive is present (both final branches return `"static"`). -/
def detect_site_type (directives : List (String × String))
    (locations : List LocationBlock) : String :=
  if directives.any (fun kv => strContains (strToLower kv.1) "php") then "php"
  else
    match detectLocLoop locations with
    | some t => t
    | none =>
      if directives.any (fun kv => kv.1 == "root") then "static"
      else "static"

/-! ## Redirect-stub filter (`ConfigParser._is_redirect_server_block`) -/

/-- `ConfigParser._is_redirect_server_block` (config_parser.py lines
514–564): a block is a pure redirect stub iff it has a `return` directive
whose value mentions `https://`, `301` or `302`, no `root` / `proxy_pass` /
`fastcgi_pass` directive, and no location body containing one of those
keywords. -/
def is_redirect_server_block (directives : List (String × String))
    (locations : List LocationBlock) : Bool :=
  let hasReturn := directives.any (fun kv =>
    kv.1 == "return" &&
      (strContains kv.2 "https://" || strContains kv.2 "301" ||
        strContains kv.2 "302"))
  if !hasReturn then false
  else
    let hasContent := directives.any (fun kv =>
      kv.1 == "root" || kv.1 == "proxy_pass" || kv.1 == "fastcgi_pass")
    if hasContent then false
    else if locations.any (fun l =>
        strContains l.body "root" || strContains l.body "proxy_pass" ||
          strContains l.body "fastcgi_pass") then false
    else true

/-- The classification step of `ConfigParser._parse_server_block`
(config_parser.py lines 302–338): a redirect stub yields no site
(`return None`); otherwise the block is classified by
`_detect_site_type` (whose result is always one of the three known
kinds, so the `Unknown site type` branch is unreachable). -/
def classify_server_block (directives : List (String × String))
    (locations : List LocationBlock) : Option String :=
  if is_redirect_server_block directives locations then none
  else some (detect_site_type directives locations)

/-! ## Proxy location-path normalization
(`ProxySiteConfig.validate_location_path`, site_config.py lines 238–243)

```python
@validator("location_path")
def validate_location_path(cls, v: str) -> str:
    if not v.startswith("/"):
        v = "/" + v
    return v.rstrip("/") or "/"
```

`rstrip("/")` removes *all* trailing `'/'` characters; `or "/"` collapses
the empty string to `"/"`. -/

/-- Python `v.rstrip("/")` on the char list. -/
def rstripSlashes (v : List Char) : List Char :=
  (v.reverse.dropWhile (fun c => c == '/')).reverse

/-- `ProxySiteConfig.validate_location_path` on the char list. -/
def normalizeLocationPath (v : List Char) : List Char :=
  let v1 := if v.head? = some '/' then v else '/' :: v
  let r := rstripSlashes v1
  if r = [] then ['/'] else r

/-- `ProxySiteConfig.validate_location_path` on strings. -/
def validate_location_path (v : String) : String :=
  ⟨normalizeLocationPath v.data⟩

/-! ## Block extraction (`ConfigParser._extract_server_blocks`,
config_parser.py lines 42–79)

The Python loop keeps an absolute cursor `pos` into `content` and repeats:
`server_pos = content.find('server', pos)`; if the character *after* the
keyword is whitespace or `{` (nothing is checked *before* the keyword),
it looks for the next `{` from `server_pos` on, then walks a brace-depth
counter starting at 1; if the depth returns to 0 the span
`content[server_pos:search_pos]` is appended and scanning resumes at
`search_pos`; on any failure (no `{`, or depth never returns to 0 before
end-of-text) the block is dropped and scanning resumes at
`server_pos + 6`.

We model the cursor by the remaining suffix: `splitAtSub pat s` is
`s.find(pat)` returning the text before the first occurrence and the
suffix starting at it, and `scanDepth s d` is the depth-counting walk,
returning the consumed span (up to and including the closing brace) and
the rest, or `none` when the depth never returns to 0.  The outer loop
consumes a strictly shorter suffix on every iteration, so fuel
`length + 1` makes the fuelled loop exact. -/

/-- Split `s` at the first occurrence of `pat`:
`some (pre, suf)` with `s = pre ++ suf`, `pat` a prefix of `suf`, and no
occurrence of `pat` starting inside `pre`.  `none` if `pat` does not
occur.  Models Python's `content.find(pat, pos)` on the suffix at `pos`. -/
def splitAtSub (pat : List Char) : List Char → Option (List Char × List Char)
  | [] => if listStarts pat [] then some ([], []) else none
  | c :: cs =>
    if listStarts pat (c :: cs) then some ([], c :: cs)
    else
      match splitAtSub pat cs with
      | some (p, s) => some (c :: p, s)
      | none => none

/-- The brace-depth walk of `_extract_server_blocks` (lines 60–67):
consume characters, `{` incrementing and `}` decrementing the depth,
until the depth reaches 0 (`some (consumed, rest)`, the consumed span
including the closing brace) or the input ends first (`none`). -/
def scanDepth : List Char → Nat → Option (List Char × List Char)
  | s, 0 => some ([], s)
  | [], _ + 1 => none
  | c :: cs, d + 1 =>
    let d' := if c = '{' then d + 2 else if c = '}' then d else d + 1
    match scanDepth cs d' with
    | some (t, r) => some (c :: t, r)
    | none => none

/-- `"server"` as a char list. -/
def serverKw : List Char := "server".data

/-- The fuelled outer loop of `_extract_server_blocks`.  One fuel unit is
spent per iteration of the Python `while`; every iteration continues on a
strictly shorter suffix, so `length + 1` fuel is exact
(`extractServerBlocks`). -/
def extractLoop : Nat → List Char → List (List Char)
  | 0, _ => []
  | fuel + 1, s =>
    match splitAtSub serverKw s with
    | none => []
    | some (_, rest) =>
      match rest.drop 6 with
      | c :: _ =>
        if c.isWhitespace || c = '{' then
          match splitAtSub ['{'] rest with
          | some (pre2, bsuf) =>
            match bsuf with
            | '{' :: suf =>
              match scanDepth suf 1 with
              | some (taken, remaining) =>
                (pre2 ++ '{' :: taken) :: extractLoop fuel remaining
              | none => extractLoop fuel (rest.drop 6)
            | _ => extractLoop fuel (rest.drop 6)
          | none => extractLoop fuel (rest.drop 6)
        else extractLoop fuel (rest.drop 6)
      | [] => extractLoop fuel (rest.drop 6)

/-- `ConfigParser._extract_server_blocks` on char lists. -/
def extractServerBlocks (s : List Char) : List (List Char) :=
  extractLoop (s.length + 1) s

/-- `ConfigParser._extract_server_blocks` on strings. -/
def extract_server_blocks (content : String) : List String :=
  (extractServerBlocks content.data).map fun l => ⟨l⟩

/-! ## Site model (`src/models/site_config.py`)

The three Pydantic site variants share the base fields of
`SiteConfigBase`; the per-kind fields live in the variant.  The manager
(`ConfigManager.update_config`) reads only `site_name` of these values and
delegates rendering to the generator it is handed. -/

/-- Kind-specific fields of `StaticSiteConfig` / `PHPSiteConfig` /
`ProxySiteConfig`. -/
inductive SiteVariant
  | staticSite (root_path index_file : String)
  | phpSite (root_path php_fpm_mode php_fpm_socket php_fpm_host : String)
      (php_fpm_port : Nat)
  | proxySite (proxy_pass_url location_path : String)
      (enable_websocket : Bool)
deriving DecidableEq, Repr

/-- A validated site value (`SiteConfigBase` plus its variant fields).
`performance_settings` / `security_settings` are the auto-filled baseline
dicts; the generator does not read them (it injects its own baselines),
so they are not modelled further. -/
structure SiteConfig where
  site_name : String
  listen_port : Nat := 80
  server_name : String := "localhost"
  enable_https : Bool := false
  enable_http_redirect : Bool := false
  ssl_cert_path : Option String := none
  ssl_key_path : Option String := none
  variant : SiteVariant
deriving DecidableEq, Repr

/-- The string name of a site's kind (`site_type` in the source). -/
def SiteConfig.site_type (s : SiteConfig) : String :=
  match s.variant with
  | .staticSite _ _ => "static"
  | .phpSite _ _ _ _ _ => "php"
  | .proxySite _ _ _ => "proxy"

/-! ## Generator: Jinja2 filters of the default templates
(`ConfigGenerator`, config_generator.py)

`ConfigGenerator.generate_config` picks the template
`{site_type}_site.conf.j2`; if that file does not exist it writes a
built-in default template (`_create_default_template`,
`_get_static_template` / `_get_php_template` / `_get_proxy_template`) and
then loads and renders it.  Jinja2 compiles a template when
`get_template` loads it, and compilation fails with
`TemplateAssertionError: No filter named '…'` at the first filter
expression whose name is neither a Jinja2 built-in filter nor registered
on the environment.  `_register_filters` registers exactly `nginx_bool`,
`nginx_size` and `nginx_time`. -/

/-- The filters `ConfigGenerator._register_filters` adds to the Jinja2
environment (config_generator.py lines 97–99). -/
def registered_filters : List String :=
  ["nginx_bool", "nginx_size", "nginx_time"]

/-- The Jinja2 built-in filters the default templates could refer to
(`join` is the only built-in they use; there is no built-in named
`comment`). -/
def jinja_builtin_filters : List String :=
  ["abs", "default", "first", "join", "last", "length", "lower",
   "replace", "trim", "upper"]

/-- All filters resolvable on the generator's Jinja2 environment. -/
def env_filters : List String :=
  jinja_builtin_filters ++ registered_filters

/-- The three site kinds (`site_type` ∈ {static, php, proxy}). -/
inductive SiteType
  | staticSite
  | phpSite
  | proxySite
deriving DecidableEq, Repr

/-- The filter names referenced by the built-in default template of each
kind, in order of appearance in the template text
(config_generator.py lines 317–396 static, 398–507 php, 509–603 proxy).
Each template uses `comment` (unregistered), `nginx_bool` and `join`. -/
def default_template_filters : SiteType → List String
  | .staticSite =>
    ["comment", "nginx_bool", "join", "nginx_bool", "nginx_bool",
     "nginx_bool", "comment", "comment", "join"]
  | .phpSite =>
    ["comment", "nginx_bool", "join", "nginx_bool", "nginx_bool",
     "nginx_bool", "comment", "comment", "join"]
  | .proxySite =>
    ["comment", "nginx_bool", "join", "nginx_bool", "nginx_bool",
     "nginx_bool", "comment", "comment", "join"]

/-- Jinja2 template compilation, restricted to what decides success here:
it fails at the first referenced filter that the environment does not
know, and succeeds otherwise. -/
def compile_template (used : List String) : Except String Unit :=
  match used.find? (fun f => !env_filters.contains f) with
  | some f => .error ("No filter named " ++ f)
  | none => .ok ()

/-- The template-resolution part of `ConfigGenerator.generate_config`
(config_generator.py lines 111–133): use the template on disk when
present, otherwise the freshly written default template for the site's
kind; then compile it.  An `.error` models the `TemplateAssertionError`
that `generate_config` catches, logs and re-raises (line 133). -/
def generate_config_filters (on_disk : Option (List String))
    (kind : SiteType) : Except String Unit :=
  compile_template (on_disk.getD (default_template_filters kind))

/-! ## Generator: the rendering context
(`ConfigGenerator._prepare_template_context`, lines 135–157)

The context is the site's own fields plus three constant baseline dicts
and two constant metadata strings.  Nothing in it reads the clock: the
`generated_time` entry is the literal `"2026-01-05"` (line 154).  To make
that checkable the ambient wall-clock reading is threaded through as the
`now` argument everywhere the surrounding code could consult it — the
context-preparation ignores it, the backup-file naming uses it. -/

/-- A value of one of the Python dicts injected into the context. -/
inductive JVal
  | s (v : String)
  | n (v : Int)
  | b (v : Bool)
  | list (v : List String)
  | dict (v : List (String × String))
deriving DecidableEq, Repr

/-- `ConfigGenerator._get_performance_baseline` (lines 159–207). -/
def performance_baseline : List (String × JVal) :=
  [("worker_connections", .n 1024),
   ("worker_rlimit_nofile", .n 8192),
   ("keepalive_timeout", .s "65s"),
   ("keepalive_requests", .n 1000),
   ("gzip_enabled", .b true),
   ("gzip_comp_level", .n 6),
   ("gzip_min_length", .s "1024"),
   ("gzip_types", .list
     ["text/plain", "text/css", "text/xml", "text/javascript",
      "application/javascript", "application/xml+rss", "application/json",
      "image/svg+xml", "font/ttf", "font/otf"]),
   ("gzip_vary", .b true),
   ("gzip_proxied", .s "any"),
   ("sendfile_enabled", .b true),
   ("tcp_nopush", .b true),
   ("tcp_nodelay", .b true),
   ("multi_accept", .b true),
   ("client_max_body_size", .s "10m"),
   ("client_body_timeout", .s "12s"),
   ("client_header_timeout", .s "12s"),
   ("send_timeout", .s "10s"),
   ("access_log", .s "off"),
   ("error_log_level", .s "warn")]

/-- `ConfigGenerator._get_common_security_settings` (lines 209–239). -/
def common_security_settings : List (String × JVal) :=
  [("server_tokens", .s "off"),
   ("hide_dot_files", .b true),
   ("limit_req_zone", .s "$binary_remote_addr zone=one:10m rate=10r/s"),
   ("limit_conn_zone", .s "$binary_remote_addr zone=addr:10m"),
   ("limit_req", .s "zone=one burst=20 nodelay"),
   ("limit_conn", .s "addr 20"),
   ("client_body_buffer_size", .s "8k"),
   ("client_header_buffer_size", .s "1k"),
   ("large_client_header_buffers", .s "2 1k"),
   ("security_headers", .dict
     [("X-Content-Type-Options", "nosniff"),
      ("X-Frame-Options", "SAMEORIGIN"),
      ("X-XSS-Protection", "1; mode=block"),
      ("Referrer-Policy", "strict-origin-when-cross-origin")])]

/-- `ConfigGenerator._get_https_security_hardening` (lines 241–292). -/
def https_security_hardening : List (String × JVal) :=
  [("ssl_protocols", .list ["TLSv1.2", "TLSv1.3"]),
   ("ssl_ciphers", .s
     ("ECDHE-ECDSA-AES128-GCM-SHA256:ECDHE-RSA-AES128-GCM-SHA256:" ++
      "ECDHE-ECDSA-AES256-GCM-SHA384:ECDHE-RSA-AES256-GCM-SHA384:" ++
      "ECDHE-ECDSA-CHACHA20-POLY1305:ECDHE-RSA-CHACHA20-POLY1305:" ++
      "DHE-RSA-AES128-GCM-SHA256:DHE-RSA-AES256-GCM-SHA384")),
   ("ssl_prefer_server_ciphers", .s "on"),
   ("ssl_session_cache", .s "shared:SSL:10m"),
   ("ssl_session_timeout", .s "10m"),
   ("ssl_session_tickets", .s "off"),
   ("ssl_stapling", .s "on"),
   ("ssl_stapling_verify", .s "on"),
   ("hsts_enabled", .b true),
   ("hsts_max_age", .s "31536000"),
   ("hsts_include_subdomains", .b true),
   ("hsts_preload", .b true),
   ("http2_enabled", .b true),
   ("https_security_headers", .dict
     [("Content-Security-Policy",
       "default-src 'self'; script-src 'self' 'unsafe-inline' " ++
       "'unsafe-eval'; style-src 'self' 'unsafe-inline'; img-src 'self' " ++
       "data: https:; font-src 'self' data:; connect-src 'self';")])]

/-- The rendering context `_prepare_template_context` builds: the site's
`to_nginx_config` fields plus the injected baselines and metadata. -/
structure TemplateContext where
  site : SiteConfig
  performance_baseline : List (String × JVal)
  common_security : List (String × JVal)
  https_security : Option (List (String × JVal))
  generated_time : String
  generator : String
deriving DecidableEq, Repr

/-- `ConfigGenerator._prepare_template_context` (lines 135–157).  `now`
is the ambient wall-clock reading; the method never consults it —
`generated_time` is the literal `"2026-01-05"` of line 154. -/
def prepare_template_context (now : String) (site : SiteConfig) :
    TemplateContext :=
  { site := site
    performance_baseline := performance_baseline
    https_security :=
      if site.enable_https then some https_security_hardening else none
    common_security := common_security_settings
    generated_time := "2026-01-05"
    generator := "easyNginx v1.0" }

/-- `ConfigGenerator.generate_config` as the manager consumes it, for a
fixed set of templates on disk: `render` is Jinja2's rendering of the
kind's template, a pure function of the context. -/
def generate_config_render (render : TemplateContext → String)
    (now : String) (site : SiteConfig) : String :=
  render (prepare_template_context now site)

/-! ## The manager's slice of the file system
(`ConfigManager`, config_manager.py)

`update_config` touches: the root configuration file (read for backup
only), `backups/` next to it, the fragment directory
(`{random_id}_conf.d/`, created with `mkdir(exist_ok=True)`), its `*.conf`
files (one per site, base name = `site_name`) and `backups/` inside it.
Fragment files are keyed by base name (the glob is `*.conf`, so only
`.conf` files take part in reconciliation); backup directories are lists
of `(file name, content)`.  Backup file names embed
`datetime.now().strftime("%Y%m%d_%H%M%S")`, threaded through as `now`.
The Python `try/except` around `update_config` returns `False` only if a
step raises; every modelled step is total, and the one genuinely fallible
step in scope — the generator call — is examined separately through
`generate_config_filters`. -/

/-- The files `ConfigManager` reads and writes. -/
structure NginxFs where
  /-- Content of the root configuration file, `none` when it is absent. -/
  root_config : Option String
  /-- `backups/` next to the root configuration file. -/
  root_backups : List (String × String)
  /-- Whether the fragment directory exists. -/
  frag_dir_exists : Bool
  /-- `*.conf` fragment files: base name (without `.conf`) ↦ content. -/
  fragments : List (String × String)
  /-- `backups/` inside the fragment directory. -/
  frag_backups : List (String × String)
deriving DecidableEq, Repr

/-- `{stem}_{timestamp}.conf.bak` (config_manager.py lines 419–420 and
592–593). -/
def backupFileName (stem now : String) : String :=
  stem ++ "_" ++ now ++ ".conf.bak"

/-- The root configuration file's `Path.stem` (`nginx` for `nginx.conf`). -/
def rootConfigStem : String := "nginx"

/-- `ConfigManager.backup_config` (lines 396–434): if the root file is
absent, log an error and return `None`; otherwise copy its content to
`backups/{stem}_{timestamp}.conf.bak` and return that path. -/
def backup_config (now : String) (st : NginxFs) : Option String × NginxFs :=
  match st.root_config with
  | none => (none, st)
  | some content =>
    let name := backupFileName rootConfigStem now
    (some name,
     { st with root_backups := st.root_backups ++ [(name, content)] })

/-- Does a fragment file with base name `n` exist? -/
def hasFrag (frags : List (String × String)) (n : String) : Bool :=
  frags.any fun p => p.1 == n

/-- Content of the fragment with base name `n`, if present. -/
def lookupFrag (frags : List (String × String)) (n : String) :
    Option String :=
  (frags.find? fun p => p.1 == n).map (·.2)

/-- `site_file.write_text(...)`: overwrite the fragment named `n` if it
exists, create it otherwise. -/
def writeFrag (frags : List (String × String)) (n c : String) :
    List (String × String) :=
  if hasFrag frags n then
    frags.map fun p => if p.1 == n then (n, c) else p
  else frags ++ [(n, c)]

/-- Step 4 of `update_config` (lines 246–260): for each site in order,
render it, back up an already-existing `{site_name}.conf`
(`_backup_site_config`, lines 573–608), and write the rendered text. -/
def writeSiteFiles (gen : SiteConfig → String) (now : String)
    (sites : List SiteConfig)
    (acc : List (String × String) × List (String × String)) :
    List (String × String) × List (String × String) :=
  sites.foldl
    (fun acc site =>
      let (frags, fbks) := acc
      let name := site.site_name
      let fbks' :=
        match lookupFrag frags name with
        | some old => fbks ++ [(backupFileName name now, old)]
        | none => fbks
      (writeFrag frags name (gen site), fbks'))
    acc

/-- Step 5 of `update_config` (lines 262–270): every `*.conf` file whose
base name is not a current `site_name` is backed up
(`_backup_site_config`) and deleted. -/
def cleanupFrags (now : String) (current : List String)
    (frags fbks : List (String × String)) :
    List (String × String) × List (String × String) :=
  (frags.filter fun p => current.contains p.1,
   fbks ++ (frags.filter fun p => !current.contains p.1).map
     fun p => (backupFileName p.1 now, p.2))

/-- `ConfigManager.update_config` (lines 207–280).  Step 1 backs up the
root config, *only logging* the result (lines 232–235); the call to
`_ensure_include_directive` is commented out in the source (lines
237–239), so the root configuration file itself is never written; step 3
creates the fragment directory; steps 4 and 5 write and reconcile the
fragment files.  Returns `True`. -/
def update_config (gen : SiteConfig → String) (now : String)
    (sites : List SiteConfig) (st : NginxFs) : Bool × NginxFs :=
  let (_backupPath, st1) := backup_config now st
  let st2 := { st1 with frag_dir_exists := true }
  let (frags3, fbks3) :=
    writeSiteFiles gen now sites (st2.fragments, st2.frag_backups)
  let current := sites.map (·.site_name)
  let (frags4, fbks4) := cleanupFrags now current frags3 fbks3
  (true, { st2 with fragments := frags4, frag_backups := fbks4 })

/-! ## Concrete fixtures used by the counterexamples and witnesses -/

/-- A valid static site named `a`. -/
def siteA : SiteConfig :=
  { site_name := "a", variant := .staticSite "/var/www" "index.html" }

/-- A concrete stand-in for the generator's render of `siteA`. -/
def genConst : SiteConfig → String := fun _ => "rendered a"

/-- A file system whose root configuration file is absent (so
`backup_config` fails) and whose fragment directory already holds
`a.conf`. -/
def noRootState : NginxFs :=
  { root_config := none, root_backups := [], frag_dir_exists := true,
    fragments := [("a", "old content")], frag_backups := [] }

/-- A root configuration with no `include` directive at all. -/
def plainRoot : String :=
  "events \x7b\n    worker_connections 1024;\n\x7d\n"

/-- A file system whose root configuration is `plainRoot` and whose
fragment directory is empty. -/
def plainRootState : NginxFs :=
  { root_config := some plainRoot, root_backups := [],
    frag_dir_exists := true, fragments := [], frag_backups := [] }

/-- C1: for every site kind, when no template file exists on disk,
`generate_config` writes the built-in default template and Jinja2's
compilation of it fails at the unregistered `comment` filter — so the
render raises (`TemplateAssertionError`) instead of returning a
configuration string.  This contradicts the claim that `generate_config`
is total and that the default template renders successfully; the code's
own fallback exists precisely to render, so the unregistered filter is a
slip in the code. -/
theorem claim1_default_template_comment_filter_fails :
    generate_config_filters none .staticSite =
      .error "No filter named comment" ∧
    generate_config_filters none .phpSite =
      .error "No filter named comment" ∧
    generate_config_filters none .proxySite =
      .error "No filter named comment" :=
  ⟨rfl, rfl, rfl⟩

/-- C6: a server block whose directives are exactly `listen 80;`,
`server_name example.com;` and `return 301 https://example.com$request_uri;`
with no location blocks is filtered out as a redirect stub (no `Site`),
while the same block with `root /var/www;` added is kept and classifies
as a static site. -/
theorem claim6_redirect_stub_exclusion :
    classify_server_block
      [("listen", "80"), ("server_name", "example.com"),
       ("return", "301 https://example.com$request_uri")] [] = none ∧
    classify_server_block
      [("listen", "80"), ("server_name", "example.com"),
       ("return", "301 https://example.com$request_uri"),
       ("root", "/var/www")] [] = some "static" := by
  constructor <;> decide

/-- C9, counterexample: the claim says `"myserver { ... }"` yields no
server block, but `_extract_server_blocks` checks only the character
*after* the keyword, so the occurrence of `server` embedded at the end of
`myserver` starts a block and extraction returns one block. -/
theorem claim9_counterexample :
    extract_server_blocks "myserver \x7b x \x7d" =
      ["server \x7b x \x7d"] ∧
    extract_server_blocks "myserver \x7b x \x7d" ≠ [] := by
  constructor <;> decide

/-- C9, amended: extraction rejects a keyword occurrence only by the
character that follows it.  Occurrences extended to the right
(`server_name`, `serverx`) are rejected, but an occurrence embedded at
the *end* of a longer identifier (`myserver`) does start a block — the
block beginning at the embedded keyword. -/
theorem claim9_amended_following_char_check_only :
    extract_server_blocks "myserver \x7b x \x7d" =
      ["server \x7b x \x7d"] ∧
    extract_server_blocks "server_name \x7b x \x7d" = [] ∧
    extract_server_blocks "serverx \x7b x \x7d" = [] := by
  refine ⟨by decide, by decide, by decide⟩

/-- C4, counterexample: with one location containing `proxy_pass` before
another containing `fastcgi_pass`, the claim demands kind `php`
(all-fastcgi-before-any-proxy precedence), but `_detect_site_type`
checks the two signals per location in order and classifies `proxy`. -/
theorem claim4_counterexample :
    detect_site_type [("listen", "80")]
      [⟨"/", "proxy_pass http://backend:3000;"⟩,
       ⟨"/api", "fastcgi_pass 127.0.0.1:9000;"⟩] ≠ "php" ∧
    detect_site_type [("listen", "80")]
      [⟨"/", "proxy_pass http://backend:3000;"⟩,
       ⟨"/api", "fastcgi_pass 127.0.0.1:9000;"⟩] = "proxy" := by
  constructor <;> decide

/-- C2, counterexample: with the root configuration file absent,
`backup_config` fails (returns `None`, no timestamped copy is produced),
yet `update_config` proceeds: it overwrites the existing fragment
`a.conf` and returns `True` — a destructive write after a failed backup,
refuting the abort-before-any-destructive-write claim. -/
theorem claim2_counterexample :
    (update_config genConst "20260101_000000" [siteA] noRootState).1
        = true ∧
    (update_config genConst "20260101_000000" [siteA]
        noRootState).2.root_backups = [] ∧
    (update_config genConst "20260101_000000" [siteA]
        noRootState).2.fragments = [("a", "rendered a")] := by
  refine ⟨rfl, rfl, by decide⟩

/-- C3, counterexample: a successful `update_config` on a root
configuration that contains no `include` directive leaves the root file
byte-identical — no include directive is inserted (the
`_ensure_include_directive` call is commented out in the source), so
after the update the root file still contains no include directive at
all. -/
theorem claim3_counterexample :
    (update_config genConst "20260101_000000" [siteA] plainRootState).1
        = true ∧
    (update_config genConst "20260101_000000" [siteA]
        plainRootState).2.root_config = some plainRoot ∧
    strContains plainRoot "include" = false := by
  refine ⟨rfl, rfl, by decide⟩

/-- C3, amended: `update_config` leaves the root configuration file
entirely unmodified — it neither checks for nor inserts an `include`
directive (that is assumed to have been added when the installation took
over the configuration); whatever the root file held before the update,
it holds afterwards. -/
theorem claim3_amended_root_config_untouched (gen : SiteConfig → String)
    (now : String) (sites : List SiteConfig) (st : NginxFs) :
    (update_config gen now sites st).2.root_config = st.root_config := by
  unfold update_config backup_config
  cases h : st.root_config <;> simp [h]

/-- C2, amended: a failed root-configuration backup does not abort
`update_config`.  The failure is only logged: the call still returns
`True`, produces no backup copy, and performs exactly the fragment
writes and deletions it would have performed had the backup succeeded. -/
theorem claim2_amended_failed_backup_does_not_abort
    (gen : SiteConfig → String) (now : String) (sites : List SiteConfig)
    (st : NginxFs) (h : st.root_config = none) :
    (update_config gen now sites st).1 = true ∧
    (update_config gen now sites st).2.root_backups = st.root_backups ∧
    ∀ c : String,
      (update_config gen now sites
          { st with root_config := some c }).2.fragments =
        (update_config gen now sites st).2.fragments ∧
      (update_config gen now sites
          { st with root_config := some c }).2.frag_backups =
        (update_config gen now sites st).2.frag_backups := by
  refine ⟨?_, ?_, ?_⟩
  · rfl
  · simp [update_config, backup_config, h]
  · intro c
    constructor <;> simp [update_config, backup_config, h]

/-- Witness for C2's amended claim, at the concrete no-root state: the
backup fails there, and the fragment outcome matches the outcome of the
same update on the same state with a root file present. -/
theorem claim2_amended_witness :
    noRootState.root_config = none ∧
    (update_config genConst "20260101_000000" [siteA]
        { noRootState with root_config := some "events \x7b\x7d" }).2.fragments =
      (update_config genConst "20260101_000000" [siteA]
        noRootState).2.fragments :=
  ⟨rfl,
   ((claim2_amended_failed_backup_does_not_abort genConst "20260101_000000"
      [siteA] noRootState rfl).2.2 "events \x7b\x7d").1⟩

/-! ## C4: the per-location precedence actually implemented -/

/-- Modelled from the amended claim's words: any directive name
containing `php` → `php`; otherwise the *first location in order* whose
body contains `fastcgi_pass` or `proxy_pass` decides the kind
(`fastcgi_pass` winning inside a single location); otherwise `static`. -/
def detect_site_type_amended (directives : List (String × String))
    (locations : List LocationBlock) : String :=
  if directives.any (fun kv => strContains (strToLower kv.1) "php") then
    "php"
  else
    match locations.find? (fun l =>
        strContains (strToLower l.body) "fastcgi_pass" ||
          strContains (strToLower l.body) "proxy_pass") with
    | some l =>
      if strContains (strToLower l.body) "fastcgi_pass" then "php"
      else "proxy"
    | none => "static"

theorem detectLocLoop_eq_find (locs : List LocationBlock) :
    detectLocLoop locs =
      (locs.find? (fun l =>
          strContains (strToLower l.body) "fastcgi_pass" ||
            strContains (strToLower l.body) "proxy_pass")).map
        (fun l =>
          if strContains (strToLower l.body) "fastcgi_pass" then "php"
          else "proxy") := by
  induction locs with
  | nil => rfl
  | cons l ls ih =>
    cases hf : strContains (strToLower l.body) "fastcgi_pass" <;>
      cases hp : strContains (strToLower l.body) "proxy_pass" <;>
        simp [detectLocLoop, List.find?, hf, hp, ih]

/-- C4, amended: classification gives `php` whenever a directive name
contains `php`; otherwise it walks the locations *in order* and the
first one containing `fastcgi_pass` or `proxy_pass` decides the kind —
`fastcgi_pass` beats `proxy_pass` only within that single location;
otherwise the kind is `static`. -/
theorem claim4_amended_per_location_precedence
    (directives : List (String × String))
    (locations : List LocationBlock) :
    detect_site_type directives locations =
      detect_site_type_amended directives locations := by
  unfold detect_site_type detect_site_type_amended
  cases hphp : directives.any (fun kv => strContains (strToLower kv.1) "php")
  · rw [detectLocLoop_eq_find]
    cases hfind : locations.find? (fun l =>
        strContains (strToLower l.body) "fastcgi_pass" ||
          strContains (strToLower l.body) "proxy_pass") <;>
      simp [hphp, hfind, ite_self]
  · simp [hphp]

/-! ## C10: idempotence of the location-path normalization -/

theorem head?_dropWhile_false {p : Char → Bool} {l : List Char} {a : Char}
    (h : (l.dropWhile p).head? = some a) : p a = false := by
  induction l with
  | nil => simp [List.dropWhile] at h
  | cons c cs ih =>
    rw [List.dropWhile] at h
    cases hc : p c
    · rw [hc] at h
      simp only [List.head?] at h
      cases h
      exact hc
    · rw [hc] at h
      exact ih h

theorem dropWhile_eq_self_of_head {p : Char → Bool} {l : List Char}
    (h : ∀ a, l.head? = some a → p a = false) : l.dropWhile p = l := by
  cases l with
  | nil => rfl
  | cons c cs =>
    rw [List.dropWhile, h c rfl]

theorem rstripSlashes_initial (v : List Char) : rstripSlashes v <+: v := by
  unfold rstripSlashes
  have hsuf : v.reverse.dropWhile (fun c => c == '/') <:+ v.reverse :=
    ⟨v.reverse.takeWhile (fun c => c == '/'),
     List.takeWhile_append_dropWhile _ _⟩
  have := List.reverse_prefix.mpr hsuf
  simpa using this

theorem head?_of_initial {l₁ l₂ : List Char} (h : l₁ <+: l₂)
    (hne : l₁ ≠ []) : l₂.head? = l₁.head? := by
  obtain ⟨t, rfl⟩ := h
  cases l₁ with
  | nil => exact absurd rfl hne
  | cons c cs => rfl

theorem rstripSlashes_getLast {v : List Char}
    (h : rstripSlashes v ≠ []) :
    (rstripSlashes v).getLast? ≠ some '/' := by
  intro hlast
  have h1 : (rstripSlashes v).reverse.head? = some '/' := by
    rw [List.head?_reverse]; exact hlast
  have h2 : (rstripSlashes v).reverse
      = v.reverse.dropWhile (fun c => c == '/') := by
    unfold rstripSlashes
    rw [List.reverse_reverse]
  rw [h2] at h1
  have := head?_dropWhile_false h1
  simp at this

theorem rstripSlashes_of_getLast {l : List Char}
    (h : l.getLast? ≠ some '/') : rstripSlashes l = l := by
  unfold rstripSlashes
  rw [dropWhile_eq_self_of_head, List.reverse_reverse]
  intro a ha
  rw [List.head?_reverse] at ha
  cases heq : a == '/'
  · rfl
  · exfalso
    apply h
    rw [ha]
    simp at heq
    rw [heq]

theorem normalizeLocationPath_head (v : List Char) :
    (normalizeLocationPath v).head? = some '/' := by
  unfold normalizeLocationPath
  have hv1 : (if v.head? = some '/' then v else '/' :: v).head?
      = some '/' := by
    split
    · assumption
    · rfl
  by_cases hr : rstripSlashes (if v.head? = some '/' then v else '/' :: v) = []
  · rw [if_pos hr]
    rfl
  · simp only [if_neg hr]
    rw [head?_of_initial (rstripSlashes_initial _) hr] at hv1
    exact hv1

theorem normalizeLocationPath_last (v : List Char) :
    normalizeLocationPath v = ['/'] ∨
      (normalizeLocationPath v).getLast? ≠ some '/' := by
  unfold normalizeLocationPath
  by_cases hr : rstripSlashes (if v.head? = some '/' then v else '/' :: v) = []
  · left
    rw [if_pos hr]
  · right
    simp only [if_neg hr]
    exact rstripSlashes_getLast hr

theorem normalizeLocationPath_idem (v : List Char) :
    normalizeLocationPath (normalizeLocationPath v)
      = normalizeLocationPath v := by
  have key : ∀ o : List Char, o.head? = some '/' → o.getLast? ≠ some '/' →
      o ≠ [] → normalizeLocationPath o = o := by
    intro o h1 h2 h3
    simp only [normalizeLocationPath]
    rw [if_pos h1, rstripSlashes_of_getLast h2, if_neg h3]
  rcases normalizeLocationPath_last v with h | h
  · rw [h]; decide
  · have hhead := normalizeLocationPath_head v
    have hne : normalizeLocationPath v ≠ [] := by
      intro h0; rw [h0] at hhead; cases hhead
    exact key _ hhead h hne

/-- C10: the normalization of `ProxySiteConfig.validate_location_path`
is idempotent — applying it to its own output returns the output
unchanged — and every normalized path starts with `/` and, unless it is
exactly `/`, does not end with `/`. -/
theorem claim10_location_path_normalization (v : String) :
    validate_location_path (validate_location_path v)
        = validate_location_path v ∧
    (validate_location_path v).data.head? = some '/' ∧
    (validate_location_path v = "/" ∨
      (validate_location_path v).data.getLast? ≠ some '/') := by
  refine ⟨?_, ?_, ?_⟩
  · show (⟨normalizeLocationPath (normalizeLocationPath v.data)⟩ : String)
        = ⟨normalizeLocationPath v.data⟩
    rw [normalizeLocationPath_idem]
  · exact normalizeLocationPath_head v.data
  · rcases normalizeLocationPath_last v.data with h | h
    · left
      show (⟨normalizeLocationPath v.data⟩ : String) = "/"
      rw [h]
    · right
      exact h

/-! ## C8: reconciliation of the fragment directory -/

theorem mem_writeFrag {L : List (String × String)} {n c m d : String} :
    (m, d) ∈ writeFrag L n c ↔
      ((m, d) ∈ L ∧ m ≠ n) ∨ (m = n ∧ d = c) := by
  unfold writeFrag hasFrag
  cases hh : L.any (fun p => p.1 == n) with
  | true =>
    rw [if_pos rfl]
    rw [List.mem_map]
    constructor
    · rintro ⟨⟨p1, p2⟩, hp, hfp⟩
      cases hpn : p1 == n with
      | true =>
        rw [hpn] at hfp
        rw [if_pos rfl] at hfp
        rw [Prod.mk.injEq] at hfp
        right
        exact ⟨hfp.1.symm, hfp.2.symm⟩
      | false =>
        rw [hpn] at hfp
        rw [if_neg (by simp)] at hfp
        left
        rw [Prod.mk.injEq] at hfp
        refine ⟨by rw [← hfp.1, ← hfp.2]; exact hp, ?_⟩
        rw [← hfp.1]
        intro hEq
        rw [hEq] at hpn
        simp at hpn
    · rintro (⟨hmem, hmn⟩ | ⟨rfl, rfl⟩)
      · refine ⟨(m, d), hmem, ?_⟩
        have hb : (m == n) = false := by
          cases hb : m == n
          · rfl
          · exact absurd (by simpa using hb) hmn
        simp [hb]
      · rw [List.any_eq_true] at hh
        obtain ⟨⟨p1, p2⟩, hp, hpe⟩ := hh
        refine ⟨(p1, p2), hp, ?_⟩
        simp only at hpe
        simp [hpe]
  | false =>
    rw [if_neg (by simp)]
    have hnone : ∀ p ∈ L, (p.1 == n) = false := by
      intro p hp
      rw [List.any_eq_false] at hh
      cases hb : p.1 == n
      · rfl
      · exact absurd hb (by simpa using hh p hp)
    constructor
    · intro hm
      rw [List.mem_append] at hm
      rcases hm with hm | hm
      · left
        refine ⟨hm, ?_⟩
        have hb := hnone (m, d) hm
        simp only at hb
        intro hEq
        rw [hEq] at hb
        simp at hb
      · rw [List.mem_singleton, Prod.mk.injEq] at hm
        right
        exact hm
    · rintro (⟨hmem, _⟩ | ⟨rfl, rfl⟩)
      · exact List.mem_append_left _ hmem
      · exact List.mem_append_right _ (List.mem_singleton.mpr rfl)

/-- The fragment-file component of the step-4 write loop. -/
def writeFragsOnly (gen : SiteConfig → String) (sites : List SiteConfig)
    (L : List (String × String)) : List (String × String) :=
  sites.foldl (fun L s => writeFrag L s.site_name (gen s)) L

theorem writeSiteFiles_fst (gen : SiteConfig → String) (now : String)
    (sites : List SiteConfig) (L B : List (String × String)) :
    (writeSiteFiles gen now sites (L, B)).1 = writeFragsOnly gen sites L := by
  induction sites generalizing L B with
  | nil => rfl
  | cons s ss ih =>
    unfold writeSiteFiles writeFragsOnly at *
    simp only [List.foldl_cons]
    cases hl : lookupFrag L s.site_name <;> simp [hl, ih]

theorem mem_writeFragsOnly_of_not_current {gen : SiteConfig → String}
    {sites : List SiteConfig} {L : List (String × String)} {m d : String}
    (hm : (m, d) ∈ L) (hout : m ∉ sites.map (·.site_name)) :
    (m, d) ∈ writeFragsOnly gen sites L := by
  induction sites generalizing L with
  | nil => exact hm
  | cons s ss ih =>
    rw [List.map_cons, List.mem_cons] at hout
    push_neg at hout
    exact ih (mem_writeFrag.mpr (Or.inl ⟨hm, hout.1⟩)) hout.2

theorem exists_mem_writeFrag_of_exists {L : List (String × String)}
    {m n c : String} (h : ∃ d, (m, d) ∈ L) :
    ∃ d, (m, d) ∈ writeFrag L n c := by
  obtain ⟨d, hd⟩ := h
  by_cases hmn : m = n
  · exact ⟨c, mem_writeFrag.mpr (Or.inr ⟨hmn, rfl⟩)⟩
  · exact ⟨d, mem_writeFrag.mpr (Or.inl ⟨hd, hmn⟩)⟩

theorem exists_mem_writeFragsOnly_of_exists (gen : SiteConfig → String)
    (sites : List SiteConfig) {L : List (String × String)} {m : String}
    (h : ∃ d, (m, d) ∈ L) :
    ∃ d, (m, d) ∈ writeFragsOnly gen sites L := by
  induction sites generalizing L with
  | nil => exact h
  | cons s ss ih => exact ih (exists_mem_writeFrag_of_exists h)

theorem exists_mem_writeFragsOnly (gen : SiteConfig → String)
    (sites : List SiteConfig) (L : List (String × String)) {s : SiteConfig}
    (hs : s ∈ sites) :
    ∃ d, (s.site_name, d) ∈ writeFragsOnly gen sites L := by
  induction sites generalizing L with
  | nil => cases hs
  | cons t ts ih =>
    rw [List.mem_cons] at hs
    rcases hs with rfl | hs
    · exact exists_mem_writeFragsOnly_of_exists gen ts
        (L := writeFrag L s.site_name (gen s))
        ⟨gen s, mem_writeFrag.mpr (Or.inr ⟨rfl, rfl⟩)⟩
    · exact ih _ hs

theorem update_config_state (gen : SiteConfig → String) (now : String)
    (sites : List SiteConfig) (st : NginxFs) :
    (update_config gen now sites st).2.fragments
        = (writeFragsOnly gen sites st.fragments).filter
            (fun p => (sites.map (·.site_name)).contains p.1) ∧
    (update_config gen now sites st).2.frag_backups
        = (writeSiteFiles gen now sites (st.fragments, st.frag_backups)).2
            ++ ((writeFragsOnly gen sites st.fragments).filter
                (fun p => !(sites.map (·.site_name)).contains p.1)).map
              (fun p => (backupFileName p.1 now, p.2)) := by
  have hw := writeSiteFiles_fst gen now sites st.fragments st.frag_backups
  rcases hws : writeSiteFiles gen now sites (st.fragments, st.frag_backups)
    with ⟨f3, b3⟩
  rw [hws] at hw
  unfold update_config backup_config
  cases h : st.root_config <;>
    simp only [h, hws, cleanupFrags, hw] <;> exact ⟨trivial, trivial⟩

/-- C8: after any `update_config`, every pre-existing fragment whose base
name is not a supplied `site_name` has been backed up (with its old
content, under the timestamped backup name) and removed from the
fragment directory, while every supplied site has a fragment file. -/
theorem claim8_reconciliation (gen : SiteConfig → String) (now : String)
    (sites : List SiteConfig) (st : NginxFs) :
    (∀ m d, (m, d) ∈ st.fragments → m ∉ sites.map (·.site_name) →
      (backupFileName m now, d) ∈
          (update_config gen now sites st).2.frag_backups ∧
        ∀ d', (m, d') ∉ (update_config gen now sites st).2.fragments) ∧
    (∀ s ∈ sites, ∃ d,
      (s.site_name, d) ∈ (update_config gen now sites st).2.fragments) := by
  obtain ⟨hfr, hbk⟩ := update_config_state gen now sites st
  constructor
  · intro m d hmem hout
    have hcont : ((sites.map (·.site_name)).contains m) = false := by
      cases hc : (sites.map (·.site_name)).contains m
      · rfl
      · exact absurd (List.elem_iff.mp hc) hout
    constructor
    · rw [hbk]
      refine List.mem_append_right _ ?_
      rw [List.mem_map]
      refine ⟨(m, d), ?_, rfl⟩
      rw [List.mem_filter]
      refine ⟨mem_writeFragsOnly_of_not_current hmem hout, ?_⟩
      simp only [hcont, Bool.not_false]
    · intro d' hd'
      rw [hfr, List.mem_filter] at hd'
      rw [hcont] at hd'
      exact absurd hd'.2 (by simp)
  · intro s hs
    obtain ⟨d, hd⟩ :=
      exists_mem_writeFragsOnly gen sites st.fragments hs
    refine ⟨d, ?_⟩
    rw [hfr, List.mem_filter]
    refine ⟨hd, List.elem_iff.mpr ?_⟩
    exact List.mem_map.mpr ⟨s, hs, rfl⟩

/-! ## C7: idempotence of the fragment writes -/

/-- A fixture state for the witnesses below: two fragments `a.conf`,
`b.conf` on disk. -/
def twoFragState : NginxFs :=
  { root_config := some plainRoot, root_backups := [],
    frag_dir_exists := true,
    fragments := [("a", "A0"), ("b", "B0")], frag_backups := [] }

/-- Witness for C8 at the spec's own example: starting from fragments
`a.conf`, `b.conf`, updating with the single site `a` backs `b.conf`'s
old content up under its timestamped backup name, removes `b.conf`, and
keeps a fragment for `a`. -/
theorem claim8_witness :
    (backupFileName "b" "20260101_000000", "B0") ∈
        (update_config genConst "20260101_000000" [siteA]
          twoFragState).2.frag_backups ∧
      ("b", "B0") ∉ (update_config genConst "20260101_000000" [siteA]
          twoFragState).2.fragments ∧
      ∃ d, ("a", d) ∈ (update_config genConst "20260101_000000" [siteA]
          twoFragState).2.fragments := by
  have h := claim8_reconciliation genConst "20260101_000000" [siteA]
    twoFragState
  exact ⟨(h.1 "b" "B0" (by decide) (by decide)).1,
         (h.1 "b" "B0" (by decide) (by decide)).2 "B0",
         h.2 siteA (by decide)⟩

theorem hasFrag_iff {L : List (String × String)} {n : String} :
    hasFrag L n = true ↔ ∃ d, (n, d) ∈ L := by
  unfold hasFrag
  rw [List.any_eq_true]
  constructor
  · rintro ⟨⟨p1, p2⟩, hp, hpe⟩
    simp only [beq_iff_eq] at hpe
    exact ⟨p2, by rw [← hpe]; exact hp⟩
  · rintro ⟨d, hd⟩
    exact ⟨(n, d), hd, by simp⟩

theorem mem_writeFragsOnly_iff {gen : SiteConfig → String}
    {sites : List SiteConfig} {L : List (String × String)} {m d : String}
    (hnd : (sites.map (·.site_name)).Nodup) :
    (m, d) ∈ writeFragsOnly gen sites L ↔
      ((m, d) ∈ L ∧ m ∉ sites.map (·.site_name)) ∨
        ∃ s ∈ sites, m = s.site_name ∧ d = gen s := by
  induction sites generalizing L with
  | nil => simp [writeFragsOnly]
  | cons s ss ih =>
    rw [List.map_cons, List.nodup_cons] at hnd
    obtain ⟨hs_not, hnd'⟩ := hnd
    show (m, d) ∈ writeFragsOnly gen ss (writeFrag L s.site_name (gen s)) ↔ _
    rw [ih hnd', mem_writeFrag]
    constructor
    · rintro (⟨⟨hm, hne⟩ | ⟨rfl, rfl⟩, hout⟩ | ⟨t, ht, rfl, rfl⟩)
      · left
        refine ⟨hm, ?_⟩
        rw [List.map_cons, List.mem_cons]
        push_neg
        exact ⟨hne, hout⟩
      · right
        exact ⟨s, List.mem_cons_self _ _, rfl, rfl⟩
      · right
        exact ⟨t, List.mem_cons_of_mem _ ht, rfl, rfl⟩
    · rintro (⟨hm, hout⟩ | ⟨t, ht, rfl, rfl⟩)
      · rw [List.map_cons, List.mem_cons] at hout
        push_neg at hout
        left
        exact ⟨Or.inl ⟨hm, hout.1⟩, hout.2⟩
      · rw [List.mem_cons] at ht
        rcases ht with rfl | ht
        · left
          exact ⟨Or.inr ⟨rfl, rfl⟩, hs_not⟩
        · right
          exact ⟨t, ht, rfl, rfl⟩

theorem writeFrag_eq_self {L : List (String × String)} {n c : String}
    (hpresent : hasFrag L n = true)
    (hcontent : ∀ d, (n, d) ∈ L → d = c) : writeFrag L n c = L := by
  unfold writeFrag
  rw [if_pos hpresent]
  have hpt : ∀ p ∈ L, (if p.1 == n then (n, c) else p) = p := by
    rintro ⟨p1, p2⟩ hp
    cases hb : p1 == n
    · simp
    · have hp1 : p1 = n := by simpa using hb
      subst hp1
      have hc := hcontent p2 hp
      simp [hc]
  rw [List.map_congr_left hpt]
  exact List.map_id' L

theorem writeFragsOnly_eq_self {gen : SiteConfig → String}
    {sites : List SiteConfig} {L : List (String × String)}
    (hpresent : ∀ s ∈ sites, hasFrag L s.site_name = true)
    (hcontent : ∀ s ∈ sites, ∀ d, (s.site_name, d) ∈ L → d = gen s) :
    writeFragsOnly gen sites L = L := by
  induction sites with
  | nil => rfl
  | cons s ss ih =>
    show writeFragsOnly gen ss (writeFrag L s.site_name (gen s)) = L
    rw [writeFrag_eq_self (hpresent s (List.mem_cons_self _ _))
        (hcontent s (List.mem_cons_self _ _))]
    exact ih (fun t ht => hpresent t (List.mem_cons_of_mem _ ht))
      (fun t ht => hcontent t (List.mem_cons_of_mem _ ht))

/-- C7: updating twice with the same site list writes byte-identical
fragment files the second time, whatever the two calls read from the
wall clock (`now1`, `now2`): the rendering context carries no clock
reading — `generated_time` is a constant — so the second update rewrites
every fragment with exactly the bytes already there and deletes
nothing. -/
theorem claim7_update_idempotent (render : TemplateContext → String)
    (now1 now2 : String) (sites : List SiteConfig) (st : NginxFs)
    (hnd : (sites.map (·.site_name)).Nodup) :
    (update_config (generate_config_render render now2) now2 sites
        (update_config (generate_config_render render now1) now1 sites
          st).2).2.fragments
      = (update_config (generate_config_render render now1) now1 sites
          st).2.fragments := by
  have hgen2 : generate_config_render render now2
      = generate_config_render render now1 := by
    funext s
    rfl
  rw [hgen2]
  set gen := generate_config_render render now1 with hgen
  set st1 := (update_config gen now1 sites st).2 with hst1
  obtain ⟨hfr1, _⟩ := update_config_state gen now1 sites st
  obtain ⟨hfr2, _⟩ := update_config_state gen now2 sites st1
  rw [hfr2]
  have hmem : ∀ m d, (m, d) ∈ st1.fragments →
      ∃ s ∈ sites, m = s.site_name ∧ d = gen s := by
    intro m d hm
    rw [hst1, hfr1, List.mem_filter] at hm
    obtain ⟨hm1, hm2⟩ := hm
    rw [mem_writeFragsOnly_iff hnd] at hm1
    rcases hm1 with ⟨_, hout⟩ | h
    · exact absurd (List.elem_iff.mp hm2) hout
    · exact h
  have hpresent : ∀ s ∈ sites, hasFrag st1.fragments s.site_name = true := by
    intro s hs
    obtain ⟨d, hd⟩ :=
      exists_mem_writeFragsOnly gen sites st.fragments hs
    rw [hasFrag_iff]
    refine ⟨d, ?_⟩
    rw [hst1, hfr1, List.mem_filter]
    exact ⟨hd, List.elem_iff.mpr (List.mem_map.mpr ⟨s, hs, rfl⟩)⟩
  have hcontent : ∀ s ∈ sites, ∀ d,
      (s.site_name, d) ∈ st1.fragments → d = gen s := by
    intro s hs d hd
    obtain ⟨t, ht, hname, hc⟩ := hmem _ _ hd
    have hts : t = s := List.inj_on_of_nodup_map hnd ht hs hname.symm
    rw [hc, hts]
  rw [writeFragsOnly_eq_self hpresent hcontent]
  apply List.filter_eq_self.mpr
  rintro ⟨m, d⟩ hp
  obtain ⟨s, hs, hname, _⟩ := hmem m d hp
  simp only []
  exact List.elem_iff.mpr (List.mem_map.mpr ⟨s, hs, hname.symm⟩)

/-- A concrete render function: Jinja2's rendering of some fixed
on-disk template, seen only through the context. -/
def renderW : TemplateContext → String :=
  fun ctx => ctx.site.site_name ++ " " ++ ctx.generated_time

/-- Witness for C7 at concrete inputs: two successive updates of the
one-site list, read at two different clock times, leave the fragment
files byte-identical. -/
theorem claim7_witness :
    (update_config (generate_config_render renderW "20260102_000000")
        "20260102_000000" [siteA]
        (update_config (generate_config_render renderW "20260101_000000")
          "20260101_000000" [siteA] twoFragState).2).2.fragments
      = (update_config (generate_config_render renderW "20260101_000000")
          "20260101_000000" [siteA] twoFragState).2.fragments :=
  claim7_update_idempotent renderW "20260101_000000" "20260102_000000"
    [siteA] twoFragState (by decide)

theorem splitAtSub_of_starts {pat s : List Char}
    (h : listStarts pat s = true) : splitAtSub pat s = some ([], s) := by
  cases s with
  | nil => unfold splitAtSub; rw [if_pos h]
  | cons c cs => unfold splitAtSub; rw [if_pos h]

theorem splitAtSub_append (a : Char) (rest pre suf : List Char)
    (hpre : ∀ c ∈ pre, c ≠ a)
    (hsuf : listStarts (a :: rest) suf = true) :
    splitAtSub (a :: rest) (pre ++ suf) = some (pre, suf) := by
  induction pre with
  | nil =>
    rw [List.nil_append]
    exact splitAtSub_of_starts hsuf
  | cons c cs ih =>
    rw [List.cons_append]
    have hfalse : listStarts (a :: rest) (c :: (cs ++ suf)) = false := by
      have hca : (a == c) = false := by
        have := hpre c (List.mem_cons_self _ _)
        simp [Ne.symm this]
      rw [listStarts]
      simp [hca]
    rw [splitAtSub, if_neg (by simp [hfalse])]
    rw [ih (fun x hx => hpre x (List.mem_cons_of_mem _ hx))]

theorem scanDepth_append_split {s t r : List Char} {d : Nat}
    (h : scanDepth s d = some (t, r)) : s = t ++ r := by
  induction s generalizing d t r with
  | nil =>
    cases d with
    | zero => unfold scanDepth at h; cases h; rfl
    | succ d => exact absurd h (by unfold scanDepth; simp)
  | cons c cs ih =>
    cases d with
    | zero => unfold scanDepth at h; cases h; rfl
    | succ d =>
      simp only [scanDepth] at h
      rcases hrec : scanDepth cs
          (if c = '{' then d + 2 else if c = '}' then d else d + 1)
        with _ | ⟨t', r'⟩
      · simp only [hrec] at h
        exact Option.noConfusion h
      · simp only [hrec, Option.some.injEq, Prod.mk.injEq] at h
        obtain ⟨h1, h2⟩ := h
        subst h2
        rw [← h1, List.cons_append]
        exact congrArg (c :: ·) (ih hrec)

theorem scanDepth_brace_free {seg : List Char}
    (hseg : ∀ c ∈ seg, c ≠ '{' ∧ c ≠ '}') (s : List Char) (d : Nat) :
    scanDepth (seg ++ s) (d + 1)
      = (scanDepth s (d + 1)).map (fun pr => (seg ++ pr.1, pr.2)) := by
  induction seg with
  | nil =>
    rw [List.nil_append]
    rcases hsd : scanDepth s (d + 1) with _ | ⟨t, r⟩ <;> simp [hsd]
  | cons c cs ih =>
    rw [List.cons_append]
    obtain ⟨hc1, hc2⟩ := hseg c (List.mem_cons_self _ _)
    simp only [scanDepth]
    rw [if_neg hc1, if_neg hc2]
    rw [ih (fun x hx => hseg x (List.mem_cons_of_mem _ hx))]
    rcases hsd : scanDepth s (d + 1) with _ | ⟨t, r⟩ <;> simp [hsd]

theorem scanDepth_open (s : List Char) (d : Nat) :
    scanDepth ('{' :: s) (d + 1)
      = (scanDepth s (d + 2)).map (fun pr => ('{' :: pr.1, pr.2)) := by
  simp only [scanDepth]
  rcases hsd : scanDepth s (d + 2) with _ | ⟨t, r⟩ <;> simp [hsd]

theorem scanDepth_close_succ (s : List Char) (d : Nat) :
    scanDepth ('}' :: s) (d + 2)
      = (scanDepth s (d + 1)).map (fun pr => ('}' :: pr.1, pr.2)) := by
  simp only [scanDepth]
  rcases hsd : scanDepth s (d + 1) with _ | ⟨t, r⟩ <;> simp [hsd]

theorem scanDepth_close_one (s : List Char) :
    scanDepth ('}' :: s) 1 = some (['}'], s) := by
  simp [scanDepth]

/-- The two-block scenario of C5, stepped through the fuelled loop: the
first `server {` block never closes (its depth is still 1 when the text
ends, because the second block's braces balance each other), so it is
dropped and scanning resumes 6 characters past its keyword; the second
block closes and is extracted whole.  `b1` and `b2` are the two block
bodies, brace-free and `s`-free so that the keyword and brace searches
find only the delimiters written explicitly. -/
theorem extractLoop_two_blocks (f : Nat) (b1 b2 : List Char)
    (h1 : ∀ c ∈ b1, c ≠ '{' ∧ c ≠ '}' ∧ c ≠ 's')
    (h2 : ∀ c ∈ b2, c ≠ '{' ∧ c ≠ '}' ∧ c ≠ 's') :
    extractLoop (f + 3)
      ('s' :: 'e' :: 'r' :: 'v' :: 'e' :: 'r' :: ' ' :: '{' ::
        (b1 ++ ('s' :: 'e' :: 'r' :: 'v' :: 'e' :: 'r' :: ' ' :: '{' ::
          (b2 ++ ['}']))))
      = ['s' :: 'e' :: 'r' :: 'v' :: 'e' :: 'r' :: ' ' :: '{' ::
          (b2 ++ ['}'])] := by
  have hkw : serverKw = 's' :: 'e' :: 'r' :: 'v' :: 'e' :: 'r' :: [] := rfl
  set inner : List Char :=
    's' :: 'e' :: 'r' :: 'v' :: 'e' :: 'r' :: ' ' :: '{' :: (b2 ++ ['}'])
    with hinner
  set T : List Char :=
    's' :: 'e' :: 'r' :: 'v' :: 'e' :: 'r' :: ' ' :: '{' :: (b1 ++ inner)
    with hT
  -- iteration 1: the first, unbalanced block is dropped
  have hA : splitAtSub serverKw T = some ([], T) := by
    apply splitAtSub_of_starts
    rw [hkw, hT]
    simp [listStarts]
  have hdrop : T.drop 6 = ' ' :: '{' :: (b1 ++ inner) := by
    rw [hT]
    rfl
  have hB : splitAtSub ['{'] T
      = some (['s', 'e', 'r', 'v', 'e', 'r', ' '], '{' :: (b1 ++ inner)) := by
    have h := splitAtSub_append '{' [] ['s', 'e', 'r', 'v', 'e', 'r', ' ']
      ('{' :: (b1 ++ inner)) (by decide) (by simp [listStarts])
    rw [hT]
    simpa using h
  have hscan1 : scanDepth (b1 ++ inner) 1 = none := by
    have hb1 : ∀ c ∈ b1, c ≠ '{' ∧ c ≠ '}' :=
      fun c hc => ⟨(h1 c hc).1, (h1 c hc).2.1⟩
    have hstep1 := scanDepth_brace_free hb1 inner 0
    have hseg : ∀ c ∈ (['s', 'e', 'r', 'v', 'e', 'r', ' '] : List Char),
        c ≠ '{' ∧ c ≠ '}' := by decide
    have hstep2 := scanDepth_brace_free hseg ('{' :: (b2 ++ ['}'])) 0
    have hstep3 := scanDepth_open (b2 ++ ['}']) 0
    have hb2 : ∀ c ∈ b2, c ≠ '{' ∧ c ≠ '}' :=
      fun c hc => ⟨(h2 c hc).1, (h2 c hc).2.1⟩
    have hstep4 := scanDepth_brace_free hb2 ['}'] 1
    have hstep5 := scanDepth_close_succ ([] : List Char) 0
    have hnil : scanDepth ([] : List Char) 1 = none := rfl
    norm_num at hstep1 hstep2 hstep3 hstep4 hstep5
    rw [hstep1, hinner, hstep2, hstep3, hstep4, hstep5, hnil]
    rfl
  show extractLoop ((f + 2) + 1) T = [inner]
  rw [extractLoop]
  simp only [hA, hdrop]
  rw [if_pos (by decide)]
  simp only [hB, hscan1, hdrop]
  -- iteration 2: the second, well-formed block is extracted
  show extractLoop ((f + 1) + 1) (' ' :: '{' :: (b1 ++ inner)) = [inner]
  rw [extractLoop]
  have hA2 : splitAtSub serverKw (' ' :: '{' :: (b1 ++ inner))
      = some (' ' :: '{' :: b1, inner) := by
    have hpre : ∀ c ∈ ' ' :: '{' :: b1, c ≠ 's' := by
      intro c hc
      rcases List.mem_cons.mp hc with rfl | hc
      · decide
      rcases List.mem_cons.mp hc with rfl | hc
      · decide
      exact (h1 c hc).2.2
    have hsuf : listStarts ('s' :: ['e', 'r', 'v', 'e', 'r']) inner
        = true := by
      rw [hinner]
      simp [listStarts]
    have h := splitAtSub_append 's' ['e', 'r', 'v', 'e', 'r']
      (' ' :: '{' :: b1) inner hpre hsuf
    rw [hkw]
    simpa using h
  have hdrop2 : inner.drop 6 = ' ' :: '{' :: (b2 ++ ['}']) := by
    rw [hinner]
    rfl
  have hB2 : splitAtSub ['{'] inner
      = some (['s', 'e', 'r', 'v', 'e', 'r', ' '], '{' :: (b2 ++ ['}'])) := by
    have h := splitAtSub_append '{' [] ['s', 'e', 'r', 'v', 'e', 'r', ' ']
      ('{' :: (b2 ++ ['}'])) (by decide) (by simp [listStarts])
    rw [hinner]
    simpa using h
  have hscan2 : scanDepth (b2 ++ ['}']) 1 = some (b2 ++ ['}'], []) := by
    have h := scanDepth_brace_free
      (fun c hc => ⟨(h2 c hc).1, (h2 c hc).2.1⟩) ['}'] 0
    norm_num at h
    rw [scanDepth_close_one] at h
    simpa using h
  simp only [hA2, hdrop2]
  rw [if_pos (by decide)]
  simp only [hB2, hscan2]
  -- iteration 3: the remaining input is empty
  have hnil3 : splitAtSub serverKw ([] : List Char) = none := by decide
  rw [extractLoop]
  simp only [hnil3]
  rw [hinner]
  simp

/-- C5: on a text made of two `server` blocks where the first is missing
its closing brace (its depth never returns to 0 before end-of-text) and
the second is well-formed, extraction raises no error, silently drops the
first block, and returns exactly one block — the second, byte-for-byte.
The bodies `b1`, `b2` range over all brace-free texts without `s` (so the
only keyword and brace occurrences are the delimiters shown). -/
theorem claim5_unbalanced_first_block_dropped (b1 b2 : List Char)
    (h1 : ∀ c ∈ b1, c ≠ '{' ∧ c ≠ '}' ∧ c ≠ 's')
    (h2 : ∀ c ∈ b2, c ≠ '{' ∧ c ≠ '}' ∧ c ≠ 's') :
    extractServerBlocks
        ("server \x7b".data ++ b1 ++ "server \x7b".data ++ b2 ++ ['\x7d'])
      = ["server \x7b".data ++ b2 ++ ['\x7d']] := by
  have hstr : "server \x7b".data
      = 's' :: 'e' :: 'r' :: 'v' :: 'e' :: 'r' :: ' ' :: '{' :: [] := rfl
  unfold extractServerBlocks
  rw [hstr]
  have hshape :
      ('s' :: 'e' :: 'r' :: 'v' :: 'e' :: 'r' :: ' ' :: '{' :: ([] : List Char))
          ++ b1
          ++ ('s' :: 'e' :: 'r' :: 'v' :: 'e' :: 'r' :: ' ' :: '{' :: [])
          ++ b2 ++ ['}']
        = 's' :: 'e' :: 'r' :: 'v' :: 'e' :: 'r' :: ' ' :: '{' ::
            (b1 ++ ('s' :: 'e' :: 'r' :: 'v' :: 'e' :: 'r' :: ' ' :: '{' ::
              (b2 ++ ['}']))) := by
    simp
  rw [hshape]
  have hlen : ('s' :: 'e' :: 'r' :: 'v' :: 'e' :: 'r' :: ' ' :: '{' ::
        (b1 ++ ('s' :: 'e' :: 'r' :: 'v' :: 'e' :: 'r' :: ' ' :: '{' ::
          (b2 ++ ['}'])))).length + 1
      = (b1.length + b2.length + 15) + 3 := by
    simp [List.length_append]
    omega
  rw [hlen]
  have hshape2 :
      ('s' :: 'e' :: 'r' :: 'v' :: 'e' :: 'r' :: ' ' :: '{' :: ([] : List Char))
          ++ b2 ++ ['}']
        = 's' :: 'e' :: 'r' :: 'v' :: 'e' :: 'r' :: ' ' :: '{' ::
            (b2 ++ ['}']) := by simp
  rw [hshape2]
  exact extractLoop_two_blocks _ b1 b2 h1 h2

/-- Witness for C5: with concrete brace-free bodies, the text whose
first `server` block never closes yields exactly the one well-formed
second block. -/
theorem claim5_witness :
    (∀ c ∈ " port 80; ".data, c ≠ '{' ∧ c ≠ '}' ∧ c ≠ 's') ∧
    extractServerBlocks
        ("server \x7b".data ++ " port 80; ".data ++ "server \x7b".data
          ++ " root /data; ".data ++ ['\x7d'])
      = ["server \x7b".data ++ " root /data; ".data ++ ['\x7d']] :=
  ⟨by decide,
   claim5_unbalanced_first_block_dropped " port 80; ".data
     " root /data; ".data (by decide) (by decide)⟩
